import Mathlib

/-!
Verification of the Innie traversal-and-annotation engine (`src/Innie/Innie.cpp`)
against its natural-language specification.

The embedding is shallow: registry property stores are association lists of
tagged values, the asynchronous readiness flags are modelled as observation
sequences `Nat → Bool` (`f i` is the value read at the i-th check of the
corresponding poll loop), allocation outcomes of the `OS*::with*` constructors
are an explicit oracle, and the traversal functions are translated clause by
clause from the source.  Sleeps and property-update invocations are recorded
as explicit event traces where a claim speaks about ordering or timing.
-/

namespace Innie

/-- Dynamic registry values: `OSBoolean`, `OSData` (byte blob), `OSString`,
and `OSDictionary` (modelled as an association list of key/value pairs). -/
inductive OSObj where
  | boolean (b : Bool)
  | data (bytes : List Nat)
  | str (s : String)
  | dict (entries : List (String × OSObj))

/-- A node's property store: ordered key/value association list. -/
abbrev Props := List (String × OSObj)

/-- Model of `getProperty`: first binding of the key, if any. -/
def getProp : Props → String → Option OSObj
  | [], _ => none
  | (k, v) :: rest, key => if k = key then some v else getProp rest key

/-- Model of `setProperty` / `OSDictionary::setObject`: overwrite the existing binding
of the key, or append a new one. -/
def setProp : Props → String → OSObj → Props
  | [], key, v => [(key, v)]
  | (k, w) :: rest, key, v =>
      if k = key then (key, v) :: rest else (k, w) :: setProp rest key v

/-- Outcome oracle for the fallible `OS*::with*` constructors used by
`setBuiltIn` and `updateOtherProperties`: `true` means the allocation
succeeds. -/
structure Alloc where
  internalStr : Bool
  internalIconStr : Bool
  builtInData : Bool
  iconCopy : Bool
  protoCopy : Bool
  protoNew : Bool

/-- All allocations succeed. -/
def allocOK : Alloc := ⟨true, true, true, true, true, true⟩

/-- Model of `Innie::setBuiltIn` (Innie.cpp:165-174): build a one-byte `OSData 0x01`
and force-set the `built-in` property; if the `OSData` allocation fails the
write is skipped and nothing else happens. -/
def setBuiltIn (a : Alloc) (p : Props) : Props :=
  if a.builtInData then setProp p "built-in" (OSObj.data [1]) else p

/-- Icon block of `Innie::updateOtherProperties` (Innie.cpp:192-203): if
`IOMediaIcon` is present and is a dictionary, shallow-copy it
(`OSDictionary::withDictionary`), overwrite `IOBundleResourceFile` in the
copy, and store the copy back; wrong kind or absent, or a failed copy
allocation, leaves the store unchanged. -/
def updIcon (a : Alloc) (p : Props) : Props :=
  match getProp p "IOMediaIcon" with
  | some (OSObj.dict d) =>
      if a.iconCopy then
        setProp p "IOMediaIcon"
          (OSObj.dict (setProp d "IOBundleResourceFile" (OSObj.str "Internal.icns")))
      else p
  | _ => p

/-- Protocol-characteristics block of `Innie::updateOtherProperties`
(Innie.cpp:205-224): present as a dictionary, shallow-copy and overwrite the
`Physical Interconnect Location` key; present with the wrong kind, do
nothing; absent, create a fresh single-entry dictionary
(`OSDictionary::withCapacity`). -/
def updProto (a : Alloc) (p : Props) : Props :=
  match getProp p "Protocol Characteristics" with
  | some (OSObj.dict d) =>
      if a.protoCopy then
        setProp p "Protocol Characteristics"
          (OSObj.dict (setProp d "Physical Interconnect Location" (OSObj.str "Internal")))
      else p
  | some _ => p
  | none =>
      if a.protoNew then
        setProp p "Protocol Characteristics"
          (OSObj.dict [("Physical Interconnect Location", OSObj.str "Internal")])
      else p

/-- Model of `Innie::updateOtherProperties` (Innie.cpp:176-231): allocate the two
shared sentinel strings (returning early, with no update at all, if either
allocation fails), force-set `Physical Interconnect Location`, run the icon
and protocol-characteristics blocks, and finally re-assert `built-in`. -/
def updateOtherProperties (a : Alloc) (p : Props) : Props :=
  if a.internalStr && a.internalIconStr then
    setBuiltIn a (updProto a (updIcon a
      (setProp p "Physical Interconnect Location" (OSObj.str "Internal"))))
  else p

/-- Events recorded by the annotator: the initial `setBuiltIn`, a sleep of
the given number of milliseconds, and an application of
`updateOtherProperties` to the entry with the given id. -/
inductive IEv where
  | setBI (id : Nat)
  | sleep (ms : Nat)
  | props (id : Nat)

/-- The poll loop `while (flag-read != true && timeout-- > 0) IOSleep(ms)`
(Innie.cpp:102-105 and 127-130).  `f i` is the flag value read at the i-th
check; `t` is the current value of the `timeout` counter.  Returns the final
value of `timeout` together with the trace of sleeps: a read of `true` exits
without touching the counter; a read of `false` with a positive counter
decrements it and sleeps 10 ms; a read of `false` with the counter at zero
decrements it to `-1` and exits. -/
def pollRun (f : Nat → Bool) : Nat → Nat → Int × List IEv
  | i, 0 => if f i then ((0 : Int), []) else ((-1 : Int), [])
  | i, t + 1 =>
      if f i then (((t : Int) + 1), [])
      else
        let r := pollRun f (i + 1) t
        (r.1, IEv.sleep 10 :: r.2)

/-- Final value of the `timeout` counter after the poll loop. -/
def pollFinal (f : Nat → Bool) (i t : Nat) : Int := (pollRun f i t).1

/-! Classification codes.  Modelled from the spec: the numeric constants of
`enum classCode` live in `Innie.hpp`, which is not among the sources; the
spec names exactly four recognized classes — SATA, NVMe and RAID storage
controllers and the PCI-to-PCI bridge.  The values below are the standard
PCI class codes for those classes; every claim depends only on equality with
(and distinctness of) these constants, never on their numeric values. -/

/-- Modelled from the spec: SATA controller class code. -/
def SATADevice : Nat := 0x010601

/-- Modelled from the spec: NVMe controller class code. -/
def NVMeDevice : Nat := 0x010802

/-- Modelled from the spec: RAID controller class code. -/
def RAIDDevice : Nat := 0x010400

/-- Modelled from the spec: PCI-to-PCI bridge class code. -/
def PCIBridge : Nat := 0x060400

/-- Byte `i` of an `OSData` payload (0 when out of range). -/
def byteAt (l : List Nat) (i : Nat) : Nat := (l.getD i 0) % 256

/-- Model of `*(uint32_t*)codeData->getBytesNoCopy()` on a little-endian host:
the first four payload bytes read as a 32-bit little-endian integer. -/
def le32 (l : List Nat) : Nat :=
  byteAt l 0 + byteAt l 1 * 256 + byteAt l 2 * 65536 + byteAt l 3 * 16777216

/-- Classification of a child (Innie.cpp:89-91): the `class-code` property
must be present and must dynamic-cast to `OSData`; any other kind, or
absence, yields no classification. -/
def classCodeOf (p : Props) : Option Nat :=
  match getProp p "class-code" with
  | some (OSObj.data bs) => some (le32 bs)
  | _ => none

/-- A node of the structural (device-tree) plane: registry id, property
store, the observation sequence of its `IOPCIConfigured` flag, and its
ordered structural children. -/
inductive DTNode where
  | mk (id : Nat) (props : Props) (conf : Nat → Bool) (children : List DTNode)

def DTNode.id : DTNode → Nat
  | .mk i _ _ _ => i

def DTNode.props : DTNode → Props
  | .mk _ p _ _ => p

def DTNode.conf : DTNode → (Nat → Bool)
  | .mk _ _ c _ => c

def DTNode.children : DTNode → List DTNode
  | .mk _ _ _ cs => cs

mutual
/-- Model of `Innie::recurseBridge` (Innie.cpp:82-117), recorded as the ordered list
of ids of the entries handed to `Innie::internalizeDevice`.  Each child is
classified; storage-class children are internalized (unconditionally, and
the sibling scan continues); bridge-class children are waited on with a
1000-iteration poll budget and recursed into only when the final `timeout`
is still positive; everything else is skipped. -/
def recurseBridge : DTNode → List Nat
  | .mk _ _ _ cs => recurseChildren cs

/-- The child scan of `Innie::recurseBridge` over a sibling list. -/
def recurseChildren : List DTNode → List Nat
  | [] => []
  | c :: rest =>
      (match classCodeOf c.props with
       | some code =>
           if code = SATADevice ∨ code = NVMeDevice ∨ code = RAIDDevice then
             [c.id]
           else if code = PCIBridge then
             if 0 < pollFinal c.conf 0 1000 then recurseBridge c else []
           else []
       | none => []) ++ recurseChildren rest
end

/-- A node of the service plane: registry id and service-plane children
(driver objects attached on top of the entry). -/
inductive STree where
  | mk (id : Nat) (children : List STree)

def STree.id : STree → Nat
  | .mk i _ => i

mutual
/-- Ids yielded by `IORegistryIterator::iterateOver(entry, gIOServicePlane,
kIORegistryIterateRecursively)`: recursive pre-order over the service-plane
subtree (the root entry itself is filtered out by the caller's
`driverEntry != entry` guard). -/
def preorderIds : STree → List Nat
  | .mk i cs => i :: preorderList cs

def preorderList : List STree → List Nat
  | [] => []
  | t :: ts => preorderIds t ++ preorderList ts
end

/-- The entries one pass of `Innie::internalizeDevice` updates, in order:
the device itself (Innie.cpp:142), then every service-plane entry yielded by
the recursive iterator except the device itself (Innie.cpp:145-154). -/
def passTargets (nid : Nat) (t : STree) : List Nat :=
  nid :: (preorderIds t).filter (fun i => i != nid)

/-- Apply `updateOtherProperties` to one entry of the id-indexed registry
state. -/
def updAt (a : Alloc) (i : Nat) (σ : Nat → Props) : Nat → Props :=
  fun j => if j = i then updateOtherProperties a (σ i) else σ j

/-- Apply `updateOtherProperties` to each listed entry in order. -/
def applyUpds (a : Alloc) : List Nat → (Nat → Props) → (Nat → Props)
  | [], σ => σ
  | i :: rest, σ => applyUpds a rest (updAt a i σ)

/-- State effect of the pass loop `for (int pass = 0; pass < 3; pass++)`
(Innie.cpp:138-160), with `r` passes remaining. -/
def passLoopState (a : Alloc) (nid : Nat) (t : STree) : Nat → (Nat → Props) → (Nat → Props)
  | 0, σ => σ
  | r + 1, σ => passLoopState a nid t r (applyUpds a (passTargets nid t) σ)

/-- Event trace of the pass loop, with `r` passes remaining: each pass
records its property updates in order, and `IOSleep(100)` is recorded after
every pass except the last (`if (pass < 2)`, Innie.cpp:157-159). -/
def passLoopTrace (nid : Nat) (t : STree) : Nat → List IEv
  | 0 => []
  | r + 1 =>
      (passTargets nid t).map IEv.props
        ++ (if 1 ≤ r then [IEv.sleep 100] else []) ++ passLoopTrace nid t r

/-- Model of `Innie::internalizeDevice` (Innie.cpp:119-163) on the id-indexed registry
state `σ`: first force `built-in` on the device (before any wait), then poll
the `IOPCIResourced` observation sequence `res` with a 2000-iteration
budget; `if (timeout <= 0)` stop there, otherwise run the three-pass update
loop over the device and its service-plane subtree `t`.  Returns the final
state together with the event trace. -/
def internalizeDevice (a : Alloc) (res : Nat → Bool) (nid : Nat) (t : STree)
    (σ : Nat → Props) : (Nat → Props) × List IEv :=
  let σ1 := fun j => if j = nid then setBuiltIn a (σ nid) else σ j
  if pollFinal res 0 2000 ≤ 0 then
    (σ1, IEv.setBI nid :: (pollRun res 0 2000).2)
  else
    (passLoopState a nid t 3 σ1,
     IEv.setBI nid :: ((pollRun res 0 2000).2 ++ passLoopTrace nid t 3))

/-- A child of the structural root as seen by the bus-root scan: registry id
and name. -/
structure Cand where
  id : Nat
  name : String

/-- Model of `strncmp("PC", name, 2) == 0` (Innie.cpp:59): the first two characters
of the name are `P`, `C`. -/
def isPCName (s : String) : Bool :=
  match s.data with
  | 'P' :: 'C' :: _ => true
  | _ => false

/-- Events of the bus-root locator: the `IOSleep(1000)` of the skip branch,
and the selection of a root (the `found = true` branch, Innie.cpp:60-67;
the subsequent unbounded `IOPCIConfigured` wait and the `recurseBridge`
call are modelled as terminating and do not alter which roots are
selected or in which order). -/
inductive REv where
  | sleep1000
  | select (id : Nat)
deriving DecidableEq

/-- One execution of the child scan `while ((pciRoot = ...))`
(Innie.cpp:57-74) with the given entry value of `ready`: a matching child
met while `ready` is still false triggers `IOSleep(1000); ready = true;
break;` a matching child met while `ready` is true is selected and the scan
continues with its siblings.  Returns the exit value of `ready` and the
event trace. -/
def scanOnce : Bool → List Cand → Bool × List REv
  | ready, [] => (ready, [])
  | ready, c :: rest =>
      if isPCName c.name then
        if ready then
          let s := scanOnce ready rest
          (s.1, REv.select c.id :: s.2)
        else (true, [REv.sleep1000])
      else scanOnce ready rest

/-- Ids selected within an event trace. -/
def selectedOf (evs : List REv) : List Nat :=
  evs.filterMap (fun e => match e with | REv.select i => some i | _ => none)

/-- The iteration ceiling `0x10000000` of the do-while in
`Innie::processRoot` (Innie.cpp:77). -/
def busRootCeiling : Nat := 0x10000000

/-- The do-while of `Innie::processRoot` (Innie.cpp:55-77): run the child
scan, then repeat `while (repeat++ < 0x10000000 && !found)`.  `rep` is the
current value of `repeat`; `scans rep` is the child list the fresh iterator
yields on that round; `ready` persists across rounds.  The `fuel` argument
only makes the recursion structural: from the initial call it always equals
`busRootCeiling + 1 - rep` and the `rep < busRootCeiling` guard fails
strictly before it reaches zero. -/
def processRootGo (scans : Nat → List Cand) : Bool → Nat → Nat → List REv
  | _, _, 0 => []
  | ready, rep, fuel + 1 =>
      let s := scanOnce ready (scans rep)
      if selectedOf s.2 = [] ∧ rep < busRootCeiling then
        s.2 ++ processRootGo scans s.1 (rep + 1) fuel
      else s.2

/-- Model of `Innie::processRoot` (Innie.cpp:50-80): the full locator run, started
not-ready at `repeat = 0`. -/
def processRoot (scans : Nat → List Cand) : List REv :=
  processRootGo scans false 0 (busRootCeiling + 1)

/-- Model of `Innie::start` (Innie.cpp:34-43): if the superclass start fails, return
`false`; otherwise run `processRoot`, register the service, and return
`true` unconditionally. -/
def start (superOk : Bool) (scans : Nat → List Cand) : Bool × List REv :=
  if superOk then (true, processRoot scans) else (false, [])

/-! ### Auxiliary definitions and fixtures used by the theorems -/

/-- Number of occurrences of an id in an update list. -/
def countId (j : Nat) : List Nat → Nat
  | [] => 0
  | i :: rest => if i = j then countId j rest + 1 else countId j rest

/-- n-fold application of the update sub-procedure. -/
def updIter (a : Alloc) : Nat → Props → Props
  | 0, p => p
  | n + 1, p => updateOtherProperties a (updIter a n p)

/-! ### Witness fixtures -/

/-- A storage child: NVMe class code `0x010802` as little-endian `OSData`,
with a pre-existing `built-in` annotation. -/
def wNVMe : DTNode :=
  .mk 3 [("built-in", OSObj.data [1]), ("class-code", OSObj.data [2, 8, 1, 0])]
    (fun _ => true) []

/-- A bridge child (class code `0x060400`) that is configured at once. -/
def wBridge : DTNode :=
  .mk 4 [("class-code", OSObj.data [0, 4, 6, 0])] (fun _ => true) [wNVMe]

/-- A child with an unrecognized class code (`0x030000`, display). -/
def wOther : DTNode :=
  .mk 5 [("class-code", OSObj.data [0, 0, 3, 0])] (fun _ => true) []

/-- A child whose `class-code` property is of the wrong kind. -/
def wBad : DTNode :=
  .mk 6 [("class-code", OSObj.str "oops")] (fun _ => true) []

/-- A bridge child whose `IOPCIConfigured` flag is never observed true. -/
def wDead : DTNode :=
  .mk 9 [("class-code", OSObj.data [0, 4, 6, 0])] (fun _ => false) [wNVMe]

/-- A flag first observed true at the check where the 1000-budget counter
has just reached zero. -/
def fB : Nat → Bool := fun k => decide (1000 ≤ k)

/-- A flag first observed true at the check where the 2000-budget counter
has just reached zero. -/
def fD : Nat → Bool := fun k => decide (2000 ≤ k)

/-- A bridge child whose `IOPCIConfigured` flag is first observed true one
check too late. -/
def wLate : DTNode :=
  .mk 11 [("class-code", OSObj.data [0, 4, 6, 0])] fB [wNVMe]

/-- Allocation oracle: the shared `OSString("Internal")` construction fails. -/
def allocNoStr : Alloc := ⟨false, true, true, true, true, true⟩

/-- Allocation oracle: only the `built-in` `OSData` construction fails. -/
def allocNoBI : Alloc := ⟨true, true, false, true, true, true⟩

/-- Allocation oracle: only the icon dictionary copy fails. -/
def allocNoIconCopy : Alloc := ⟨true, true, true, false, true, true⟩

/-- Allocation oracle: only the protocol dictionary copy/creation fails. -/
def allocNoProto : Alloc := ⟨true, true, true, true, false, false⟩



/-! ### Association-list property-store lemmas -/

theorem getProp_setProp_same (p : Props) (k : String) (v : OSObj) :
    getProp (setProp p k v) k = some v := by
  induction p with
  | nil => simp [setProp, getProp]
  | cons hd rest ih =>
    obtain ⟨k0, w⟩ := hd
    by_cases hk : k0 = k
    · simp [setProp, hk, getProp]
    · simp [setProp, hk, getProp, ih]

theorem getProp_setProp_diff (p : Props) {k k' : String} (v : OSObj) (h : k' ≠ k) :
    getProp (setProp p k v) k' = getProp p k' := by
  induction p with
  | nil => simp [setProp, getProp, Ne.symm h]
  | cons hd rest ih =>
    obtain ⟨k0, w⟩ := hd
    by_cases hk : k0 = k
    · subst hk
      simp [setProp, getProp, Ne.symm h]
    · by_cases hk' : k0 = k'
      · simp [setProp, hk, getProp, hk', h]
      · simp [setProp, hk, getProp, hk', ih]

theorem setProp_self (p : Props) {k : String} {v : OSObj} (h : getProp p k = some v) :
    setProp p k v = p := by
  induction p with
  | nil => simp [getProp] at h
  | cons hd rest ih =>
    obtain ⟨k0, w⟩ := hd
    by_cases hk : k0 = k
    · subst hk
      simp [getProp] at h
      simp [setProp, h]
    · simp [getProp, hk] at h
      simp [setProp, hk, ih h]


/-! ### Per-step behaviour of the property-update sub-procedure -/

theorem setBuiltIn_getProp_ne (a : Alloc) (p : Props) {k : String}
    (h : k ≠ "built-in") : getProp (setBuiltIn a p) k = getProp p k := by
  unfold setBuiltIn
  split
  · exact getProp_setProp_diff p _ h
  · rfl

theorem updIcon_getProp_ne (a : Alloc) (p : Props) {k : String}
    (h : k ≠ "IOMediaIcon") : getProp (updIcon a p) k = getProp p k := by
  unfold updIcon
  cases hg : getProp p "IOMediaIcon" with
  | none => rfl
  | some v =>
    cases v with
    | dict d =>
      by_cases hc : a.iconCopy
      · simp [hc, getProp_setProp_diff _ _ h]
      · simp [hc]
    | boolean b => rfl
    | data bs => rfl
    | str s => rfl

theorem updProto_getProp_ne (a : Alloc) (p : Props) {k : String}
    (h : k ≠ "Protocol Characteristics") :
    getProp (updProto a p) k = getProp p k := by
  unfold updProto
  cases hg : getProp p "Protocol Characteristics" with
  | none =>
    by_cases hc : a.protoNew
    · simp [hc, getProp_setProp_diff _ _ h]
    · simp [hc]
  | some v =>
    cases v with
    | dict d =>
      by_cases hc : a.protoCopy
      · simp [hc, getProp_setProp_diff _ _ h]
      · simp [hc]
    | boolean b => rfl
    | data bs => rfl
    | str s => rfl

theorem updIcon_dict (a : Alloc) (p : Props) {d : List (String × OSObj)}
    (hc : a.iconCopy = true) (h : getProp p "IOMediaIcon" = some (OSObj.dict d)) :
    updIcon a p = setProp p "IOMediaIcon"
      (OSObj.dict (setProp d "IOBundleResourceFile" (OSObj.str "Internal.icns"))) := by
  unfold updIcon
  rw [h]
  simp [hc]

theorem updIcon_skip (a : Alloc) (p : Props)
    (h : ∀ d, getProp p "IOMediaIcon" ≠ some (OSObj.dict d)) :
    updIcon a p = p := by
  unfold updIcon
  cases hg : getProp p "IOMediaIcon" with
  | none => rfl
  | some v =>
    cases v with
    | dict d => exact absurd hg (h d)
    | boolean b => rfl
    | data bs => rfl
    | str s => rfl

theorem updProto_dict (a : Alloc) (p : Props) {d : List (String × OSObj)}
    (hc : a.protoCopy = true)
    (h : getProp p "Protocol Characteristics" = some (OSObj.dict d)) :
    updProto a p = setProp p "Protocol Characteristics"
      (OSObj.dict (setProp d "Physical Interconnect Location" (OSObj.str "Internal"))) := by
  unfold updProto
  rw [h]
  simp [hc]

theorem updProto_wrong (a : Alloc) (p : Props) {v : OSObj}
    (h : getProp p "Protocol Characteristics" = some v)
    (hv : ∀ d, v ≠ OSObj.dict d) : updProto a p = p := by
  unfold updProto
  rw [h]
  cases v with
  | dict d => exact absurd rfl (hv d)
  | boolean b => rfl
  | data bs => rfl
  | str s => rfl

theorem updProto_none (a : Alloc) (p : Props) (hc : a.protoNew = true)
    (h : getProp p "Protocol Characteristics" = none) :
    updProto a p = setProp p "Protocol Characteristics"
      (OSObj.dict [("Physical Interconnect Location", OSObj.str "Internal")]) := by
  unfold updProto
  rw [h]
  simp [hc]

theorem updOK_eq (p : Props) :
    updateOtherProperties allocOK p
      = setBuiltIn allocOK (updProto allocOK (updIcon allocOK
          (setProp p "Physical Interconnect Location" (OSObj.str "Internal")))) := rfl

theorem updOK_getProp_PIL (p : Props) :
    getProp (updateOtherProperties allocOK p) "Physical Interconnect Location"
      = some (OSObj.str "Internal") := by
  rw [updOK_eq, setBuiltIn_getProp_ne _ _ (by decide),
    updProto_getProp_ne _ _ (by decide), updIcon_getProp_ne _ _ (by decide),
    getProp_setProp_same]

theorem updOK_getProp_BI (p : Props) :
    getProp (updateOtherProperties allocOK p) "built-in" = some (OSObj.data [1]) := by
  rw [updOK_eq]
  show getProp (setProp _ "built-in" (OSObj.data [1])) "built-in" = _
  rw [getProp_setProp_same]

theorem updOK_getProp_icon_dict (p : Props) {d : List (String × OSObj)}
    (h : getProp p "IOMediaIcon" = some (OSObj.dict d)) :
    getProp (updateOtherProperties allocOK p) "IOMediaIcon"
      = some (OSObj.dict (setProp d "IOBundleResourceFile" (OSObj.str "Internal.icns"))) := by
  rw [updOK_eq, setBuiltIn_getProp_ne _ _ (by decide), updProto_getProp_ne _ _ (by decide),
    updIcon_dict _ _ rfl (by rw [getProp_setProp_diff _ _ (by decide)]; exact h),
    getProp_setProp_same]

theorem updOK_getProp_icon_skip (p : Props)
    (h : ∀ d, getProp p "IOMediaIcon" ≠ some (OSObj.dict d)) :
    getProp (updateOtherProperties allocOK p) "IOMediaIcon" = getProp p "IOMediaIcon" := by
  rw [updOK_eq, setBuiltIn_getProp_ne _ _ (by decide), updProto_getProp_ne _ _ (by decide),
    updIcon_skip _ _ (by intro d hd; exact h d (by rwa [getProp_setProp_diff _ _ (by decide)] at hd)),
    getProp_setProp_diff _ _ (by decide)]

theorem updOK_getProp_proto_dict (p : Props) {d : List (String × OSObj)}
    (h : getProp p "Protocol Characteristics" = some (OSObj.dict d)) :
    getProp (updateOtherProperties allocOK p) "Protocol Characteristics"
      = some (OSObj.dict (setProp d "Physical Interconnect Location" (OSObj.str "Internal"))) := by
  rw [updOK_eq, setBuiltIn_getProp_ne _ _ (by decide),
    updProto_dict _ _ rfl (by
      rw [updIcon_getProp_ne _ _ (by decide), getProp_setProp_diff _ _ (by decide)]
      exact h),
    getProp_setProp_same]

theorem updOK_getProp_proto_wrong (p : Props) {v : OSObj}
    (h : getProp p "Protocol Characteristics" = some v) (hv : ∀ d, v ≠ OSObj.dict d) :
    getProp (updateOtherProperties allocOK p) "Protocol Characteristics" = some v := by
  rw [updOK_eq, setBuiltIn_getProp_ne _ _ (by decide),
    updProto_wrong _ _ (v := v) (by
      rw [updIcon_getProp_ne _ _ (by decide), getProp_setProp_diff _ _ (by decide)]
      exact h) hv,
    updIcon_getProp_ne _ _ (by decide), getProp_setProp_diff _ _ (by decide)]
  exact h

theorem updOK_getProp_proto_none (p : Props)
    (h : getProp p "Protocol Characteristics" = none) :
    getProp (updateOtherProperties allocOK p) "Protocol Characteristics"
      = some (OSObj.dict [("Physical Interconnect Location", OSObj.str "Internal")]) := by
  rw [updOK_eq, setBuiltIn_getProp_ne _ _ (by decide),
    updProto_none _ _ rfl (by
      rw [updIcon_getProp_ne _ _ (by decide), getProp_setProp_diff _ _ (by decide)]
      exact h),
    getProp_setProp_same]

theorem updOK_getProp_other (p : Props) {k : String}
    (h1 : k ≠ "Physical Interconnect Location") (h2 : k ≠ "IOMediaIcon")
    (h3 : k ≠ "Protocol Characteristics") (h4 : k ≠ "built-in") :
    getProp (updateOtherProperties allocOK p) k = getProp p k := by
  rw [updOK_eq, setBuiltIn_getProp_ne _ _ h4, updProto_getProp_ne _ _ h3,
    updIcon_getProp_ne _ _ h2, getProp_setProp_diff _ _ h1]


/-! ### Idempotence of the update sub-procedure -/

theorem setBuiltIn_idem (a : Alloc) (p : Props) :
    setBuiltIn a (setBuiltIn a p) = setBuiltIn a p := by
  unfold setBuiltIn
  split
  · exact setProp_self _ (getProp_setProp_same _ _ _)
  · rfl

theorem setBuiltIn_updOK (p : Props) :
    setBuiltIn allocOK (updateOtherProperties allocOK p)
      = updateOtherProperties allocOK p := by
  show setProp _ "built-in" (OSObj.data [1]) = _
  exact setProp_self _ (updOK_getProp_BI p)

theorem updOK_idem (p : Props) :
    updateOtherProperties allocOK (updateOtherProperties allocOK p)
      = updateOtherProperties allocOK p := by
  have hicon : updIcon allocOK (updateOtherProperties allocOK p)
      = updateOtherProperties allocOK p := by
    cases hg : getProp p "IOMediaIcon" with
    | some v =>
      cases v with
      | dict d =>
        have h1 := updOK_getProp_icon_dict p hg
        rw [updIcon_dict allocOK _ rfl h1,
          setProp_self _ (getProp_setProp_same _ _ _),
          setProp_self _ h1]
      | boolean b =>
        refine updIcon_skip _ _ (fun d hd => ?_)
        rw [updOK_getProp_icon_skip p (fun d h => by simp [hg] at h), hg] at hd
        cases hd
      | data bs =>
        refine updIcon_skip _ _ (fun d hd => ?_)
        rw [updOK_getProp_icon_skip p (fun d h => by simp [hg] at h), hg] at hd
        cases hd
      | str s =>
        refine updIcon_skip _ _ (fun d hd => ?_)
        rw [updOK_getProp_icon_skip p (fun d h => by simp [hg] at h), hg] at hd
        cases hd
    | none =>
      refine updIcon_skip _ _ (fun d hd => ?_)
      rw [updOK_getProp_icon_skip p (fun d h => by simp [hg] at h), hg] at hd
      cases hd
  have hproto : updProto allocOK (updateOtherProperties allocOK p)
      = updateOtherProperties allocOK p := by
    cases hg : getProp p "Protocol Characteristics" with
    | some v =>
      cases v with
      | dict d =>
        have h1 := updOK_getProp_proto_dict p hg
        rw [updProto_dict allocOK _ rfl h1,
          setProp_self _ (getProp_setProp_same _ _ _),
          setProp_self _ h1]
      | boolean b =>
        exact updProto_wrong _ _ (updOK_getProp_proto_wrong p hg (by intro d h; cases h))
          (by intro d h; cases h)
      | data bs =>
        exact updProto_wrong _ _ (updOK_getProp_proto_wrong p hg (by intro d h; cases h))
          (by intro d h; cases h)
      | str s =>
        exact updProto_wrong _ _ (updOK_getProp_proto_wrong p hg (by intro d h; cases h))
          (by intro d h; cases h)
    | none =>
      have h1 := updOK_getProp_proto_none p hg
      have hinner : setProp [("Physical Interconnect Location", OSObj.str "Internal")]
          "Physical Interconnect Location" (OSObj.str "Internal")
          = [("Physical Interconnect Location", OSObj.str "Internal")] :=
        setProp_self _ (by rfl)
      rw [updProto_dict allocOK _ rfl h1, hinner, setProp_self _ h1]
  calc updateOtherProperties allocOK (updateOtherProperties allocOK p)
      = setBuiltIn allocOK (updProto allocOK (updIcon allocOK
          (setProp (updateOtherProperties allocOK p)
            "Physical Interconnect Location" (OSObj.str "Internal")))) :=
        updOK_eq _
    _ = updateOtherProperties allocOK p := by
        rw [setProp_self _ (updOK_getProp_PIL p), hicon, hproto, setBuiltIn_updOK]


/-! ### Poll-loop lemmas -/

theorem pollRun_pos_iff (f : Nat → Bool) :
    ∀ t i, 0 < (pollRun f i t).1 ↔ ∃ k, k < t ∧ f (i + k) = true := by
  intro t
  induction t with
  | zero =>
    intro i
    constructor
    · intro h
      cases hf : f i <;> simp [pollRun, hf] at h
    · rintro ⟨k, hk, _⟩
      exact absurd hk (Nat.not_lt_zero k)
  | succ t ih =>
    intro i
    cases hf : f i with
    | true =>
      simp only [pollRun, hf, if_pos]
      constructor
      · intro _
        exact ⟨0, Nat.succ_pos t, by simpa using hf⟩
      · intro _
        omega
    | false =>
      simp only [pollRun, hf, Bool.false_eq_true, if_false]
      rw [ih (i + 1)]
      constructor
      · rintro ⟨k, hk, hfk⟩
        exact ⟨k + 1, by omega, by rwa [show i + (k + 1) = i + 1 + k by omega]⟩
      · rintro ⟨k, hk, hfk⟩
        cases k with
        | zero => rw [Nat.add_zero] at hfk; rw [hfk] at hf; cases hf
        | succ k' =>
          exact ⟨k', by omega, by rwa [show i + 1 + k' = i + (k' + 1) by omega]⟩

theorem pollFinal_pos_iff (f : Nat → Bool) (t : Nat) :
    0 < pollFinal f 0 t ↔ ∃ k, k < t ∧ f k = true := by
  unfold pollFinal
  rw [pollRun_pos_iff]
  constructor
  · rintro ⟨k, hk, hf⟩
    exact ⟨k, hk, by simpa using hf⟩
  · rintro ⟨k, hk, hf⟩
    exact ⟨k, hk, by simpa using hf⟩

theorem pollFinal_timeout (f : Nat → Bool) (t : Nat)
    (h : ∀ k, k < t → f k = false) : pollFinal f 0 t ≤ 0 := by
  by_contra hc
  rcases (pollFinal_pos_iff f t).mp (by omega) with ⟨k, hk, hf⟩
  rw [h k hk] at hf
  cases hf

theorem pollRun_trace_sleep (f : Nat → Bool) :
    ∀ t i e, e ∈ (pollRun f i t).2 → e = IEv.sleep 10 := by
  intro t
  induction t with
  | zero =>
    intro i e he
    cases hf : f i <;> simp [pollRun, hf] at he
  | succ t ih =>
    intro i e he
    cases hf : f i with
    | true => simp [pollRun, hf] at he
    | false =>
      simp only [pollRun, hf, Bool.false_eq_true, if_false, List.mem_cons] at he
      rcases he with he | he
      · exact he
      · exact ih (i + 1) e he

/-! ### Bridge-walker scan lemmas -/

theorem recurseChildren_cons (c : DTNode) (rest : List DTNode) :
    recurseChildren (c :: rest)
      = (match classCodeOf c.props with
         | some code =>
             if code = SATADevice ∨ code = NVMeDevice ∨ code = RAIDDevice then
               [c.id]
             else if code = PCIBridge then
               if 0 < pollFinal c.conf 0 1000 then recurseBridge c else []
             else []
         | none => []) ++ recurseChildren rest := rfl

theorem recurseChildren_append (l1 l2 : List DTNode) :
    recurseChildren (l1 ++ l2) = recurseChildren l1 ++ recurseChildren l2 := by
  induction l1 with
  | nil => rfl
  | cons c rest ih =>
    rw [List.cons_append, recurseChildren_cons, recurseChildren_cons, ih,
      List.append_assoc]

theorem recurseChildren_storage (c : DTNode) (rest : List DTNode) {code : Nat}
    (h : classCodeOf c.props = some code)
    (hs : code = SATADevice ∨ code = NVMeDevice ∨ code = RAIDDevice) :
    recurseChildren (c :: rest) = c.id :: recurseChildren rest := by
  rw [recurseChildren_cons, h]
  simp only [if_pos hs, List.singleton_append]

theorem recurseChildren_bridge (c : DTNode) (rest : List DTNode)
    (h : classCodeOf c.props = some PCIBridge) :
    recurseChildren (c :: rest)
      = (if 0 < pollFinal c.conf 0 1000 then recurseBridge c else [])
          ++ recurseChildren rest := by
  rw [recurseChildren_cons, h]
  rfl

theorem recurseChildren_other (c : DTNode) (rest : List DTNode) {code : Nat}
    (h : classCodeOf c.props = some code)
    (h1 : code ≠ SATADevice) (h2 : code ≠ NVMeDevice) (h3 : code ≠ RAIDDevice)
    (h4 : code ≠ PCIBridge) :
    recurseChildren (c :: rest) = recurseChildren rest := by
  rw [recurseChildren_cons, h]
  have hno : ¬(code = SATADevice ∨ code = NVMeDevice ∨ code = RAIDDevice) := by
    rintro (h' | h' | h')
    · exact h1 h'
    · exact h2 h'
    · exact h3 h'
  simp only [if_neg hno, if_neg h4, List.nil_append]

theorem recurseChildren_unclassified (c : DTNode) (rest : List DTNode)
    (h : classCodeOf c.props = none) :
    recurseChildren (c :: rest) = recurseChildren rest := by
  rw [recurseChildren_cons, h]
  exact List.nil_append _

theorem classCodeOf_wrong_kind (p : Props) {v : OSObj}
    (h : getProp p "class-code" = some v) (hv : ∀ bs, v ≠ OSObj.data bs) :
    classCodeOf p = none := by
  unfold classCodeOf
  rw [h]
  cases v with
  | data bs => exact absurd rfl (hv bs)
  | boolean b => rfl
  | str s => rfl
  | dict d => rfl


/-! ### Pass-loop state machinery -/

theorem updIter_comm (a : Alloc) (n : Nat) (p : Props) :
    updIter a n (updateOtherProperties a p)
      = updateOtherProperties a (updIter a n p) := by
  induction n with
  | zero => rfl
  | succ n ih => show updateOtherProperties a _ = _; rw [ih]; rfl

theorem updIter_add (a : Alloc) (m n : Nat) (p : Props) :
    updIter a (m + n) p = updIter a m (updIter a n p) := by
  induction m with
  | zero => simp [updIter]
  | succ m ih =>
    rw [show m + 1 + n = (m + n) + 1 from by omega]
    show updateOtherProperties a (updIter a (m + n) p) = _
    rw [ih]
    rfl

theorem applyUpds_point (a : Alloc) (l : List Nat) (σ : Nat → Props) (j : Nat) :
    applyUpds a l σ j = updIter a (countId j l) (σ j) := by
  induction l generalizing σ with
  | nil => rfl
  | cons i rest ih =>
    show applyUpds a rest (updAt a i σ) j = _
    rw [ih]
    by_cases hj : i = j
    · subst hj
      rw [show countId i (i :: rest) = countId i rest + 1 from by simp [countId]]
      rw [show updAt a i σ i = updateOtherProperties a (σ i) from if_pos rfl]
      rw [updIter_comm]
      rfl
    · rw [show countId j (i :: rest) = countId j rest from by simp [countId, hj]]
      rw [show updAt a i σ j = σ j from if_neg (fun h => hj h.symm)]

theorem passLoopState_point (a : Alloc) (nid : Nat) (t : STree) (r : Nat)
    (σ : Nat → Props) (j : Nat) :
    passLoopState a nid t r σ j
      = updIter a (r * countId j (passTargets nid t)) (σ j) := by
  induction r generalizing σ with
  | zero => rw [Nat.zero_mul]; rfl
  | succ r ih =>
    show passLoopState a nid t r (applyUpds a (passTargets nid t) σ) j = _
    rw [ih, applyUpds_point, ← updIter_add]
    congr 1
    ring

theorem updIter_collapse (n : Nat) (p : Props) :
    updIter allocOK n (updateOtherProperties allocOK p)
      = updateOtherProperties allocOK p := by
  induction n with
  | zero => rfl
  | succ n ih =>
    show updateOtherProperties allocOK _ = _
    rw [ih, updOK_idem]

theorem updIter_pos (n : Nat) (hn : 1 ≤ n) (p : Props) :
    updIter allocOK n p = updateOtherProperties allocOK p := by
  obtain ⟨m, rfl⟩ : ∃ m, n = m + 1 := ⟨n - 1, by omega⟩
  show updateOtherProperties allocOK (updIter allocOK m p) = _
  rw [← updIter_comm, updIter_collapse]

theorem countId_passTargets_self (nid : Nat) (t : STree) :
    1 ≤ countId nid (passTargets nid t) := by
  show 1 ≤ countId nid (nid :: _)
  rw [show countId nid (nid :: (preorderIds t).filter (fun i => i != nid))
      = countId nid ((preorderIds t).filter (fun i => i != nid)) + 1 from by
    simp [countId]]
  omega

theorem internalizeDevice_to (a : Alloc) (res : Nat → Bool) (nid : Nat)
    (t : STree) (σ : Nat → Props) (h : pollFinal res 0 2000 ≤ 0) :
    internalizeDevice a res nid t σ
      = (fun j => if j = nid then setBuiltIn a (σ nid) else σ j,
         IEv.setBI nid :: (pollRun res 0 2000).2) := by
  simp only [internalizeDevice]
  rw [if_pos h]

theorem internalizeDevice_ok (a : Alloc) (res : Nat → Bool) (nid : Nat)
    (t : STree) (σ : Nat → Props) (h : 0 < pollFinal res 0 2000) :
    internalizeDevice a res nid t σ
      = (passLoopState a nid t 3 (fun j => if j = nid then setBuiltIn a (σ nid) else σ j),
         IEv.setBI nid :: ((pollRun res 0 2000).2 ++ passLoopTrace nid t 3)) := by
  simp only [internalizeDevice]
  rw [if_neg (by omega)]

/-! ### Bus-root scan lemmas -/

theorem scanOnce_noPC (ready : Bool) (l : List Cand)
    (h : ∀ c ∈ l, isPCName c.name = false) : scanOnce ready l = (ready, []) := by
  induction l with
  | nil => rfl
  | cons c rest ih =>
    have hc := h c (List.mem_cons_self c rest)
    simp [scanOnce, hc, ih (fun c hm => h c (List.mem_cons_of_mem _ hm))]

theorem scanOnce_notReady (l : List Cand)
    (h : ∃ c ∈ l, isPCName c.name = true) :
    scanOnce false l = (true, [REv.sleep1000]) := by
  induction l with
  | nil => rcases h with ⟨c, hc, _⟩; cases hc
  | cons c rest ih =>
    by_cases hc : isPCName c.name
    · simp [scanOnce, hc]
    · rcases h with ⟨cw, hcw, hpc⟩
      rcases List.mem_cons.mp hcw with rfl | hmem
      · exact absurd hpc hc
      · simp [scanOnce, hc, ih ⟨cw, hmem, hpc⟩]

theorem scanOnce_ready (l : List Cand) :
    scanOnce true l
      = (true, (l.filter (fun c => isPCName c.name)).map (fun c => REv.select c.id)) := by
  induction l with
  | nil => rfl
  | cons c rest ih =>
    by_cases hc : isPCName c.name
    · simp [scanOnce, hc, ih, List.filter_cons]
    · simp [scanOnce, hc, ih, List.filter_cons]

theorem selectedOf_selects (fl : List Cand) :
    selectedOf (fl.map (fun c => REv.select c.id)) = fl.map Cand.id := by
  induction fl with
  | nil => rfl
  | cons c rest ih =>
    simp only [List.map_cons, selectedOf, List.filterMap_cons]
    exact congrArg (fun x => c.id :: x) ih

theorem processRootGo_succ (scans : Nat → List Cand) (ready : Bool)
    (rep fuel : Nat) :
    processRootGo scans ready rep (fuel + 1)
      = (if selectedOf (scanOnce ready (scans rep)).2 = [] ∧ rep < busRootCeiling then
           (scanOnce ready (scans rep)).2
             ++ processRootGo scans (scanOnce ready (scans rep)).1 (rep + 1) fuel
         else (scanOnce ready (scans rep)).2) := rfl

theorem processRoot_static (l : List Cand)
    (h : l.filter (fun c => isPCName c.name) ≠ []) :
    processRoot (fun _ => l)
      = REv.sleep1000 ::
          (l.filter (fun c => isPCName c.name)).map (fun c => REv.select c.id) := by
  have hex : ∃ c ∈ l, isPCName c.name = true := by
    rcases List.exists_mem_of_ne_nil _ h with ⟨c, hc⟩
    have hm := List.mem_filter.mp hc
    exact ⟨c, hm.1, hm.2⟩
  unfold processRoot
  rw [processRootGo_succ, scanOnce_notReady l hex]
  rw [if_pos ⟨rfl, by decide⟩]
  rw [show busRootCeiling = 0xFFFFFFF + 1 from rfl, processRootGo_succ,
    scanOnce_ready l, selectedOf_selects]
  rw [if_neg (by
    rintro ⟨hsel, -⟩
    exact h (List.map_eq_nil_iff.mp hsel))]
  rfl

theorem processRootGo_noPC (scans : Nat → List Cand)
    (h : ∀ n, ∀ c ∈ scans n, isPCName c.name = false) :
    ∀ fuel ready rep, processRootGo scans ready rep fuel = [] := by
  intro fuel
  induction fuel with
  | zero => intro ready rep; rfl
  | succ fuel ih =>
    intro ready rep
    rw [processRootGo_succ, scanOnce_noPC ready _ (h rep)]
    by_cases hrep : rep < busRootCeiling
    · rw [if_pos ⟨rfl, hrep⟩, ih]
      rfl
    · rw [if_neg (fun hand => hrep hand.2)]


/-! ### Claim C1 -/

/-- C1 counterexample: with the two bus-root candidates `PC0` (first in
enumeration order, id 0) and `PC1` (id 1) present on every scan, the
locator does select the first candidate (id 0 heads the selection list,
selected on the rescan that follows the 1000 ms pause); and with the lone
candidate `PC0` the locator selects that lone candidate instead of retrying
forever — both contrary to the claim. -/
theorem C1_counterexample :
    selectedOf (processRoot (fun _ => [⟨0, "PC0"⟩, ⟨1, "PC1"⟩])) = [0, 1]
      ∧ selectedOf (processRoot (fun _ => [⟨0, "PC0"⟩])) = [0] :=
  ⟨rfl, rfl⟩

/-- C1 (amended): on the first scan, the first candidate whose name begins
with `PC` triggers a 1000 ms pause and aborts that scan; the scan is then
retried from the top, and on the retry every matching candidate — the first
included, and a lone candidate included — is selected in enumeration
order. -/
theorem C1_theorem (l : List Cand)
    (h : l.filter (fun c => isPCName c.name) ≠ []) :
    processRoot (fun _ => l)
      = REv.sleep1000 ::
          (l.filter (fun c => isPCName c.name)).map (fun c => REv.select c.id) :=
  processRoot_static l h

/-- C1 witness: the amended theorem at the two-candidate root. -/
theorem C1_witness :
    (([⟨0, "PC0"⟩, ⟨1, "PC1"⟩] : List Cand).filter (fun c => isPCName c.name) ≠ [])
      ∧ processRoot (fun _ => ([⟨0, "PC0"⟩, ⟨1, "PC1"⟩] : List Cand))
          = REv.sleep1000 ::
              (([⟨0, "PC0"⟩, ⟨1, "PC1"⟩] : List Cand).filter
                  (fun c => isPCName c.name)).map (fun c => REv.select c.id) :=
  ⟨fun hc => (by cases hc), C1_theorem _ (fun hc => (by cases hc))⟩

/-! ### Claim C2 -/

/-- C2 counterexample: with a structural root that never exhibits a matching
child, the iteration ceiling is exhausted without any selection (root not
found), yet `Innie::start` still completes as if successful: it returns
`true`. -/
theorem C2_counterexample :
    processRoot (fun _ => ([] : List Cand)) = []
      ∧ (start true (fun _ => ([] : List Cand))).1 = true := by
  refine ⟨?_, rfl⟩
  show processRootGo _ false 0 (busRootCeiling + 1) = []
  exact processRootGo_noPC _ (fun _ c hc => absurd hc (List.not_mem_nil c)) _ _ _

/-- C2 (amended): reaching the root-locator iteration ceiling without a
successful selection is silently swallowed — `processRoot` produces no
selection and returns normally, and `Innie::start` still registers the
service and returns `true`, exactly as on success. -/
theorem C2_theorem (scans : Nat → List Cand)
    (h : ∀ n, ∀ c ∈ scans n, isPCName c.name = false) :
    processRoot scans = [] ∧ (start true scans).1 = true := by
  refine ⟨?_, rfl⟩
  show processRootGo _ false 0 (busRootCeiling + 1) = []
  exact processRootGo_noPC scans h _ _ _

/-- C2 witness: the amended theorem at the childless root. -/
theorem C2_witness :
    processRoot (fun _ => ([] : List Cand)) = []
      ∧ (start true (fun _ => ([] : List Cand))).1 = true :=
  C2_theorem _ (fun _ c hc => absurd hc (List.not_mem_nil c))

/-! ### Claim C3 -/

/-- C3: classification routing of `Innie::recurseBridge`.  For every child
with arbitrary further property state (in particular, even if `built-in` is
already present): a SATA, NVMe or RAID class code makes the walker
internalize the child and continue with its siblings; the PCI-to-PCI bridge
code makes it recurse exactly when the readiness wait ends with a positive
counter; any other code is skipped; absence of a classification is skipped;
and a `class-code` property of the wrong declared kind yields no
classification at all. -/
theorem C3_theorem (c : DTNode) (rest : List DTNode) :
    (∀ code, classCodeOf c.props = some code →
        (code = SATADevice ∨ code = NVMeDevice ∨ code = RAIDDevice →
            recurseChildren (c :: rest) = c.id :: recurseChildren rest)
          ∧ (code = PCIBridge →
              recurseChildren (c :: rest)
                = (if 0 < pollFinal c.conf 0 1000 then recurseBridge c else [])
                    ++ recurseChildren rest)
          ∧ (code ≠ SATADevice → code ≠ NVMeDevice → code ≠ RAIDDevice →
              code ≠ PCIBridge →
              recurseChildren (c :: rest) = recurseChildren rest))
      ∧ (classCodeOf c.props = none →
          recurseChildren (c :: rest) = recurseChildren rest)
      ∧ (∀ v, getProp c.props "class-code" = some v →
          (∀ bs, v ≠ OSObj.data bs) → classCodeOf c.props = none) := by
  refine ⟨fun code hc => ⟨fun hs => ?_, fun hbr => ?_, fun h1 h2 h3 h4 => ?_⟩,
    fun hn => ?_, fun v hv hnd => ?_⟩
  · exact recurseChildren_storage c rest hc hs
  · subst hbr
    exact recurseChildren_bridge c rest hc
  · exact recurseChildren_other c rest hc h1 h2 h3 h4
  · exact recurseChildren_unclassified c rest hn
  · exact classCodeOf_wrong_kind c.props hv hnd

/-- C3 witness: the routing theorem at one concrete child per branch. -/
theorem C3_witness :
    recurseChildren [wNVMe] = [3]
      ∧ recurseChildren [wBridge] = [3]
      ∧ recurseChildren [wOther] = []
      ∧ recurseChildren [wBad] = [] := by
  refine ⟨?_, ?_, ?_, ?_⟩
  · exact ((C3_theorem wNVMe []).1 NVMeDevice rfl).1 (Or.inr (Or.inl rfl))
  · exact (((C3_theorem wBridge []).1 PCIBridge rfl).2.1 rfl).trans rfl
  · exact ((C3_theorem wOther []).1 0x030000 rfl).2.2 (by decide) (by decide)
      (by decide) (by decide)
  · exact (C3_theorem wBad []).2.1
      ((C3_theorem wBad []).2.2 (OSObj.str "oops") rfl (fun bs hbs => by cases hbs))

/-! ### Claim C4 -/

/-- C4: bridge readiness invariant.  For a bridge-classified child of any
sibling list: if its `IOPCIConfigured` flag is never observed true within
the 1000-poll budget, the walker's output over the whole sibling list is
exactly the output over the other siblings — the bridge subtree contributes
nothing, so no descendant of it is internalized, while sibling subtrees are
still processed; the walker recurses into the bridge only when the wait
ends with a positive counter, which requires the flag to have been observed
true at one of the first 1000 checks. -/
theorem C4_theorem (pre post : List DTNode) (c : DTNode)
    (hb : classCodeOf c.props = some PCIBridge) :
    ((∀ k, k < 1000 → c.conf k = false) →
        recurseChildren (pre ++ c :: post)
          = recurseChildren pre ++ recurseChildren post)
      ∧ (0 < pollFinal c.conf 0 1000 → ∃ k, k < 1000 ∧ c.conf k = true)
      ∧ recurseChildren (pre ++ c :: post)
          = recurseChildren pre
              ++ ((if 0 < pollFinal c.conf 0 1000 then recurseBridge c else [])
                    ++ recurseChildren post) := by
  refine ⟨?_, fun hpos => (pollFinal_pos_iff c.conf 1000).mp hpos, ?_⟩
  · intro hto
    rw [recurseChildren_append, recurseChildren_bridge c post hb,
      if_neg (by have := pollFinal_timeout c.conf 1000 hto; omega),
      List.nil_append]
  · rw [recurseChildren_append, recurseChildren_bridge c post hb]

/-- C4 witness: a never-configured bridge between two storage siblings. -/
theorem C4_witness :
    (∀ k, k < 1000 → wDead.conf k = false)
      ∧ recurseChildren ([wNVMe] ++ wDead :: [wNVMe])
          = recurseChildren [wNVMe] ++ recurseChildren [wNVMe] :=
  ⟨fun _ _ => rfl, (C4_theorem [wNVMe] [wNVMe] wDead rfl).1 (fun _ _ => rfl)⟩


/-! ### Claim C5 -/

/-- C5: resourcing-timeout partial effect.  The `built-in` write is the very
first recorded event of `Innie::internalizeDevice` — before any wait — and
when the `IOPCIResourced` flag is not observed true at any of the 2000
in-budget checks, the final state differs from the initial one only by
`setBuiltIn` on the device, and no property-update pass is recorded for any
entry. -/
theorem C5_theorem (a : Alloc) (res : Nat → Bool) (nid : Nat) (t : STree)
    (σ : Nat → Props) :
    ((internalizeDevice a res nid t σ).2).head? = some (IEv.setBI nid)
      ∧ ((∀ k, k < 2000 → res k = false) →
          (internalizeDevice a res nid t σ).1
              = (fun j => if j = nid then setBuiltIn a (σ nid) else σ j)
            ∧ ∀ i, IEv.props i ∉ (internalizeDevice a res nid t σ).2) := by
  constructor
  · by_cases h : pollFinal res 0 2000 ≤ 0
    · rw [internalizeDevice_to a res nid t σ h]
      rfl
    · rw [internalizeDevice_ok a res nid t σ (by omega)]
      rfl
  · intro hto
    have h := pollFinal_timeout res 2000 hto
    rw [internalizeDevice_to a res nid t σ h]
    refine ⟨rfl, fun i hi => ?_⟩
    rcases List.mem_cons.mp hi with h1 | h1
    · cases h1
    · cases pollRun_trace_sleep res 2000 0 _ h1

/-- C5 witness: the theorem at a device whose flag never becomes true. -/
theorem C5_witness :
    ((internalizeDevice allocOK (fun _ => false) 3 (STree.mk 3 [])
        (fun _ => [])).2).head? = some (IEv.setBI 3)
      ∧ (internalizeDevice allocOK (fun _ => false) 3 (STree.mk 3 [])
            (fun _ => [])).1
          = (fun j => if j = 3 then setBuiltIn allocOK [] else [])
      ∧ ∀ i, IEv.props i ∉ (internalizeDevice allocOK (fun _ => false) 3
          (STree.mk 3 []) (fun _ => [])).2 := by
  have h := C5_theorem allocOK (fun _ => false) 3 (STree.mk 3 []) (fun _ => [])
  exact ⟨h.1, (h.2 (fun _ _ => rfl)).1, (h.2 (fun _ _ => rfl)).2⟩

/-! ### Claim C6 -/

theorem passLoopTrace_succ (nid : Nat) (t : STree) (r : Nat) :
    passLoopTrace nid t (r + 1)
      = (passTargets nid t).map IEv.props
          ++ (if 1 ≤ r then [IEv.sleep 100] else []) ++ passLoopTrace nid t r := rfl

theorem passLoopTrace_three (nid : Nat) (t : STree) :
    passLoopTrace nid t 3
      = (passTargets nid t).map IEv.props ++ [IEv.sleep 100]
          ++ ((passTargets nid t).map IEv.props ++ [IEv.sleep 100]
          ++ (passTargets nid t).map IEv.props) := by
  rw [show (3 : Nat) = 2 + 1 from rfl, passLoopTrace_succ,
    show (2 : Nat) = 1 + 1 from rfl, passLoopTrace_succ,
    show (1 : Nat) = 0 + 1 from rfl, passLoopTrace_succ]
  norm_num
  rfl

/-- C6: three-pass propagation.  After a successful resourcing wait the
event trace of `Innie::internalizeDevice` is the initial `built-in` write,
the wait's sleeps, and then exactly three identical passes separated by a
single 100 ms sleep between passes 1→2 and 2→3 and followed by nothing;
each pass updates the device itself first and then the service-plane
descendants delivered by the recursive iterator, which cover every id of
the service subtree other than the device's own. -/
theorem C6_theorem (a : Alloc) (res : Nat → Bool) (nid : Nat) (t : STree)
    (σ : Nat → Props) (h : 0 < pollFinal res 0 2000) :
    (internalizeDevice a res nid t σ).2
        = IEv.setBI nid ::
            ((pollRun res 0 2000).2
              ++ ((passTargets nid t).map IEv.props ++ [IEv.sleep 100]
                  ++ ((passTargets nid t).map IEv.props ++ [IEv.sleep 100]
                  ++ (passTargets nid t).map IEv.props)))
      ∧ passTargets nid t = nid :: (preorderIds t).filter (fun i => i != nid)
      ∧ ∀ i ∈ preorderIds t, i ≠ nid →
          IEv.props i ∈ (passTargets nid t).map IEv.props := by
  refine ⟨?_, rfl, fun i hi hne => ?_⟩
  · rw [internalizeDevice_ok a res nid t σ h, passLoopTrace_three]
  · refine List.mem_map_of_mem _ ?_
    show i ∈ nid :: (preorderIds t).filter (fun i => i != nid)
    exact List.mem_cons_of_mem _ (List.mem_filter.mpr ⟨hi, by simpa using hne⟩)

/-- C6 witness: the theorem at an immediately-resourced device with one
service-plane driver object. -/
theorem C6_witness :
    0 < pollFinal (fun _ => true) 0 2000
      ∧ (internalizeDevice allocOK (fun _ => true) 3
            (STree.mk 3 [STree.mk 7 []]) (fun _ => [])).2
          = IEv.setBI 3 ::
              ((pollRun (fun _ => true) 0 2000).2
                ++ ((passTargets 3 (STree.mk 3 [STree.mk 7 []])).map IEv.props
                      ++ [IEv.sleep 100]
                    ++ ((passTargets 3 (STree.mk 3 [STree.mk 7 []])).map IEv.props
                      ++ [IEv.sleep 100]
                    ++ (passTargets 3 (STree.mk 3 [STree.mk 7 []])).map IEv.props)))
      ∧ IEv.props 7 ∈ (passTargets 3 (STree.mk 3 [STree.mk 7 []])).map IEv.props := by
  have h := C6_theorem allocOK (fun _ => true) 3 (STree.mk 3 [STree.mk 7 []])
    (fun _ => []) (by rw [pollFinal_pos_iff]; exact ⟨0, by omega, rfl⟩)
  refine ⟨by rw [pollFinal_pos_iff]; exact ⟨0, by omega, rfl⟩, h.1, ?_⟩
  refine h.2.2 7 ?_ (by omega)
  show 7 ∈ 3 :: (7 :: _)
  exact List.mem_cons_of_mem _ (List.mem_cons_self _ _)

/-! ### Claim C7 -/

/-- C7: postcondition of the property-update sub-procedure with all
allocations succeeding, over an arbitrary prior property state: the
interconnect-location is force-set to the `Internal` sentinel; a present
icon dictionary is stored back as a shallow copy with only the
`IOBundleResourceFile` key overwritten to `Internal.icns`; a present
protocol-characteristics dictionary is stored back as a shallow copy with
only the location key overwritten, an absent one is created as a fresh
single-entry dictionary; `built-in` is force-set; and every other key is
untouched — no step is short-circuited by pre-existing values except the
copy-vs-create branch. -/
theorem C7_theorem (p : Props) :
    getProp (updateOtherProperties allocOK p) "Physical Interconnect Location"
        = some (OSObj.str "Internal")
      ∧ (∀ d, getProp p "IOMediaIcon" = some (OSObj.dict d) →
          getProp (updateOtherProperties allocOK p) "IOMediaIcon"
            = some (OSObj.dict
                (setProp d "IOBundleResourceFile" (OSObj.str "Internal.icns"))))
      ∧ ((∀ d, getProp p "IOMediaIcon" ≠ some (OSObj.dict d)) →
          getProp (updateOtherProperties allocOK p) "IOMediaIcon"
            = getProp p "IOMediaIcon")
      ∧ (∀ d, getProp p "Protocol Characteristics" = some (OSObj.dict d) →
          getProp (updateOtherProperties allocOK p) "Protocol Characteristics"
            = some (OSObj.dict
                (setProp d "Physical Interconnect Location" (OSObj.str "Internal"))))
      ∧ (getProp p "Protocol Characteristics" = none →
          getProp (updateOtherProperties allocOK p) "Protocol Characteristics"
            = some (OSObj.dict
                [("Physical Interconnect Location", OSObj.str "Internal")]))
      ∧ getProp (updateOtherProperties allocOK p) "built-in"
          = some (OSObj.data [1])
      ∧ (∀ k, k ≠ "Physical Interconnect Location" → k ≠ "IOMediaIcon" →
          k ≠ "Protocol Characteristics" → k ≠ "built-in" →
          getProp (updateOtherProperties allocOK p) k = getProp p k) :=
  ⟨updOK_getProp_PIL p,
   fun _ h => updOK_getProp_icon_dict p h,
   updOK_getProp_icon_skip p,
   fun _ h => updOK_getProp_proto_dict p h,
   updOK_getProp_proto_none p,
   updOK_getProp_BI p,
   fun _ h1 h2 h3 h4 => updOK_getProp_other p h1 h2 h3 h4⟩

/-- C7 witness: the postcondition theorem at a store holding an icon
dictionary and no protocol dictionary. -/
theorem C7_witness :
    getProp (updateOtherProperties allocOK
        [("IOMediaIcon", OSObj.dict [("CFBundleIdentifier", OSObj.str "x")]),
         ("built-in", OSObj.data [0])]) "Physical Interconnect Location"
        = some (OSObj.str "Internal")
      ∧ getProp (updateOtherProperties allocOK
          [("IOMediaIcon", OSObj.dict [("CFBundleIdentifier", OSObj.str "x")]),
           ("built-in", OSObj.data [0])]) "IOMediaIcon"
        = some (OSObj.dict
            (setProp [("CFBundleIdentifier", OSObj.str "x")]
              "IOBundleResourceFile" (OSObj.str "Internal.icns")))
      ∧ getProp (updateOtherProperties allocOK
          [("IOMediaIcon", OSObj.dict [("CFBundleIdentifier", OSObj.str "x")]),
           ("built-in", OSObj.data [0])]) "Protocol Characteristics"
        = some (OSObj.dict
            [("Physical Interconnect Location", OSObj.str "Internal")])
      ∧ getProp (updateOtherProperties allocOK
          [("IOMediaIcon", OSObj.dict [("CFBundleIdentifier", OSObj.str "x")]),
           ("built-in", OSObj.data [0])]) "built-in" = some (OSObj.data [1]) := by
  have h := C7_theorem
    [("IOMediaIcon", OSObj.dict [("CFBundleIdentifier", OSObj.str "x")]),
     ("built-in", OSObj.data [0])]
  exact ⟨h.1, h.2.1 _ rfl, h.2.2.2.2.1 rfl, h.2.2.2.2.2.1⟩


/-! ### Claim C8 -/

/-- C8: idempotence.  For any prior registry state, any device id, any
service subtree and any resourcing observations (a flag that has become
true stays true, so both runs see the same outcome), running the full
`Innie::internalizeDevice` state effect twice produces exactly the state of
running it once; and applying the property-update sub-procedure a second
time changes nothing. -/
theorem C8_theorem (res : Nat → Bool) (nid : Nat) (t : STree) (σ : Nat → Props)
    (p : Props) :
    (internalizeDevice allocOK res nid t
        ((internalizeDevice allocOK res nid t σ).1)).1
        = (internalizeDevice allocOK res nid t σ).1
      ∧ updateOtherProperties allocOK (updateOtherProperties allocOK p)
          = updateOtherProperties allocOK p := by
  refine ⟨?_, updOK_idem p⟩
  by_cases h : pollFinal res 0 2000 ≤ 0
  · have e1 : (internalizeDevice allocOK res nid t σ).1
        = fun j => if j = nid then setBuiltIn allocOK (σ nid) else σ j := by
      rw [internalizeDevice_to allocOK res nid t σ h]
    rw [internalizeDevice_to allocOK res nid t _ h, e1]
    funext j
    by_cases hj : j = nid
    · subst hj
      simp only [if_pos rfl]
      exact setBuiltIn_idem allocOK (σ j)
    · simp only [if_neg hj]
  · have hpos : 0 < pollFinal res 0 2000 := by omega
    have e1 : ∀ τ : Nat → Props, (internalizeDevice allocOK res nid t τ).1
        = passLoopState allocOK nid t 3
            (fun j => if j = nid then setBuiltIn allocOK (τ nid) else τ j) := by
      intro τ
      rw [internalizeDevice_ok allocOK res nid t τ hpos]
    rw [e1 ((internalizeDevice allocOK res nid t σ).1), e1 σ]
    funext j
    simp only [passLoopState_point]
    by_cases hj : j = nid
    · subst hj
      simp only [if_pos rfl, if_true]
      have hc : 1 ≤ countId j (passTargets j t) := countId_passTargets_self j t
      have h3c : 1 ≤ 3 * countId j (passTargets j t) := by omega
      rw [updIter_pos _ h3c (setBuiltIn allocOK (σ j)), setBuiltIn_updOK,
        updIter_collapse]
    · simp only [if_neg hj]
      rcases Nat.eq_zero_or_pos (countId j (passTargets nid t)) with hc | hc
      · rw [hc]
        rfl
      · have h3c : 1 ≤ 3 * countId j (passTargets nid t) := by omega
        rw [updIter_pos _ h3c (σ j), updIter_collapse]

/-! ### Claim C9 -/

theorem upd_steps (a : Alloc) (p : Props) (h1 : a.internalStr = true)
    (h2 : a.internalIconStr = true) :
    updateOtherProperties a p
      = setBuiltIn a (updProto a (updIcon a
          (setProp p "Physical Interconnect Location" (OSObj.str "Internal")))) := by
  unfold updateOtherProperties
  rw [h1, h2]
  rfl

theorem upd_noStr (a : Alloc) (p : Props)
    (h : a.internalStr = false ∨ a.internalIconStr = false) :
    updateOtherProperties a p = p := by
  unfold updateOtherProperties
  rcases h with h | h <;> rw [h] <;> simp

theorem updIcon_nocopy (a : Alloc) (p : Props) (h : a.iconCopy = false) :
    updIcon a p = p := by
  unfold updIcon
  cases hg : getProp p "IOMediaIcon" with
  | none => rfl
  | some v =>
    cases v with
    | dict d => rw [h]; simp
    | boolean b => rfl
    | data bs => rfl
    | str s => rfl

theorem updProto_noalloc (a : Alloc) (p : Props) (h1 : a.protoCopy = false)
    (h2 : a.protoNew = false) : updProto a p = p := by
  unfold updProto
  cases hg : getProp p "Protocol Characteristics" with
  | none => rw [h2]; simp
  | some v =>
    cases v with
    | dict d => rw [h1]; simp
    | boolean b => rfl
    | data bs => rfl
    | str s => rfl

theorem setBuiltIn_nodata (a : Alloc) (p : Props) (h : a.builtInData = false) :
    setBuiltIn a p = p := by
  unfold setBuiltIn
  rw [h]
  simp

theorem setBuiltIn_getProp_BI (a : Alloc) (p : Props) (h : a.builtInData = true) :
    getProp (setBuiltIn a p) "built-in" = some (OSObj.data [1]) := by
  unfold setBuiltIn
  rw [h]
  simp [getProp_setProp_same]

/-- C9 counterexample: when the shared `OSString("Internal")` allocation
fails, `Innie::updateOtherProperties` returns early and skips every
property update of that node — on an empty store nothing at all is written,
`built-in` included — not just the single affected property, unlike the
successful-allocation run, which does write `built-in`. -/
theorem C9_counterexample :
    updateOtherProperties allocNoStr [] = []
      ∧ getProp (updateOtherProperties allocNoStr []) "built-in" = none
      ∧ getProp (updateOtherProperties allocOK []) "built-in"
          = some (OSObj.data [1]) :=
  ⟨rfl, rfl, rfl⟩

/-- C9 (amended): allocation-failure recovery is local to the node or the
property, and is never escalated (every update function still returns a
state, so callers continue with subsequent entries).  A failure of either
shared sentinel string skips the entire per-node update sub-procedure; a
failure constructing the `built-in` data skips only the `built-in` write
while the interconnect location is still set; a failure of the icon copy
skips only the icon update; a failure of the protocol copy/creation skips
only the protocol update — `built-in` is still written in the latter two
cases. -/
theorem C9_theorem (p : Props) :
    (∀ a : Alloc, a.internalStr = false ∨ a.internalIconStr = false →
        updateOtherProperties a p = p)
      ∧ (getProp (updateOtherProperties allocNoBI p)
            "Physical Interconnect Location" = some (OSObj.str "Internal")
          ∧ getProp (updateOtherProperties allocNoBI p) "built-in"
            = getProp p "built-in")
      ∧ (getProp (updateOtherProperties allocNoIconCopy p) "IOMediaIcon"
            = getProp p "IOMediaIcon"
          ∧ getProp (updateOtherProperties allocNoIconCopy p) "built-in"
            = some (OSObj.data [1]))
      ∧ (getProp (updateOtherProperties allocNoProto p)
            "Protocol Characteristics"
            = getProp p "Protocol Characteristics"
          ∧ getProp (updateOtherProperties allocNoProto p) "built-in"
            = some (OSObj.data [1])) := by
  refine ⟨fun a ha => upd_noStr a p ha, ⟨?_, ?_⟩, ⟨?_, ?_⟩, ⟨?_, ?_⟩⟩
  · rw [upd_steps allocNoBI p rfl rfl, setBuiltIn_getProp_ne _ _ (by decide),
      updProto_getProp_ne _ _ (by decide), updIcon_getProp_ne _ _ (by decide),
      getProp_setProp_same]
  · rw [upd_steps allocNoBI p rfl rfl, setBuiltIn_nodata _ _ rfl,
      updProto_getProp_ne _ _ (by decide), updIcon_getProp_ne _ _ (by decide),
      getProp_setProp_diff _ _ (by decide)]
  · rw [upd_steps allocNoIconCopy p rfl rfl, setBuiltIn_getProp_ne _ _ (by decide),
      updProto_getProp_ne _ _ (by decide), updIcon_nocopy _ _ rfl,
      getProp_setProp_diff _ _ (by decide)]
  · rw [upd_steps allocNoIconCopy p rfl rfl, setBuiltIn_getProp_BI _ _ rfl]
  · rw [upd_steps allocNoProto p rfl rfl, setBuiltIn_getProp_ne _ _ (by decide),
      updProto_noalloc _ _ rfl rfl, updIcon_getProp_ne _ _ (by decide),
      getProp_setProp_diff _ _ (by decide)]
  · rw [upd_steps allocNoProto p rfl rfl, setBuiltIn_getProp_BI _ _ rfl]

/-- C9 witness: the amended theorem at a store with pre-existing icon,
protocol and built-in values. -/
theorem C9_witness :
    updateOtherProperties allocNoStr
        [("built-in", OSObj.data [9]), ("IOMediaIcon", OSObj.dict [])]
      = [("built-in", OSObj.data [9]), ("IOMediaIcon", OSObj.dict [])]
      ∧ getProp (updateOtherProperties allocNoBI
          [("built-in", OSObj.data [9]), ("IOMediaIcon", OSObj.dict [])])
          "built-in"
        = getProp [("built-in", OSObj.data [9]), ("IOMediaIcon", OSObj.dict [])]
            "built-in"
      ∧ getProp (updateOtherProperties allocNoIconCopy
          [("built-in", OSObj.data [9]), ("IOMediaIcon", OSObj.dict [])])
          "IOMediaIcon"
        = getProp [("built-in", OSObj.data [9]), ("IOMediaIcon", OSObj.dict [])]
            "IOMediaIcon"
      ∧ getProp (updateOtherProperties allocNoProto
          [("built-in", OSObj.data [9]), ("IOMediaIcon", OSObj.dict [])])
          "built-in" = some (OSObj.data [1]) := by
  have h := C9_theorem
    [("built-in", OSObj.data [9]), ("IOMediaIcon", OSObj.dict [])]
  exact ⟨h.1 allocNoStr (Or.inl rfl), h.2.1.2, h.2.2.1.1, h.2.2.2.2⟩

/-! ### Claim C10 -/

/-- C10: implicit timeout boundary.  The wait succeeds (final counter
positive) exactly when the flag is observed true at a check made strictly
before the counter reaches zero; consequently, a bridge whose
`IOPCIConfigured` flag first reads true at the 1000th check (counter just
decremented to zero) is still skipped with its whole subtree, and a device
whose `IOPCIResourced` flag first reads true at the 2000th check still
takes the timeout branch and receives only the `built-in` write — even
though the flag is true at that very check. -/
theorem C10_theorem :
    (∀ (f : Nat → Bool) (t : Nat),
        0 < pollFinal f 0 t ↔ ∃ k, k < t ∧ f k = true)
      ∧ (∀ (c : DTNode) (rest : List DTNode),
          classCodeOf c.props = some PCIBridge →
          (∀ k, k < 1000 → c.conf k = false) → c.conf 1000 = true →
          recurseChildren (c :: rest) = recurseChildren rest)
      ∧ (∀ (a : Alloc) (res : Nat → Bool) (nid : Nat) (t : STree)
            (σ : Nat → Props),
          (∀ k, k < 2000 → res k = false) → res 2000 = true →
          (internalizeDevice a res nid t σ).1
            = fun j => if j = nid then setBuiltIn a (σ nid) else σ j) := by
  refine ⟨pollFinal_pos_iff, ?_, ?_⟩
  · intro c rest hb hto _
    rw [recurseChildren_bridge c rest hb,
      if_neg (by have := pollFinal_timeout c.conf 1000 hto; omega),
      List.nil_append]
  · intro a res nid t σ hto _
    rw [internalizeDevice_to a res nid t σ (pollFinal_timeout res 2000 hto)]

/-- C10 witness: the boundary theorem at flags first observed true exactly
at the counter-zero check. -/
theorem C10_witness :
    (0 < pollFinal fB 0 1000 ↔ ∃ k, k < 1000 ∧ fB k = true)
      ∧ (∀ k, k < 1000 → wLate.conf k = false)
      ∧ wLate.conf 1000 = true
      ∧ recurseChildren [wLate] = recurseChildren []
      ∧ (∀ k, k < 2000 → fD k = false)
      ∧ fD 2000 = true
      ∧ (internalizeDevice allocOK fD 3 (STree.mk 3 []) (fun _ => [])).1
          = fun j => if j = 3 then setBuiltIn allocOK [] else
              (fun _ : Nat => ([] : Props)) j := by
  have hB : ∀ k, k < 1000 → wLate.conf k = false := by
    intro k hk
    show fB k = false
    simp only [fB, decide_eq_false_iff_not]
    omega
  have hD : ∀ k, k < 2000 → fD k = false := by
    intro k hk
    simp only [fD, decide_eq_false_iff_not]
    omega
  refine ⟨C10_theorem.1 fB 1000, hB, rfl,
    C10_theorem.2.1 wLate [] rfl hB rfl, hD, rfl,
    C10_theorem.2.2 allocOK fD 3 (STree.mk 3 []) (fun _ => []) hD rfl⟩

end Innie
